import Mathlib

/-!
Shallow embedding of the `spotlight_save` utility (src/src/lib.rs, src/src/main.rs).

The program scans the Windows Spotlight cache directory, copies qualifying
images (landscape, at least 800x600, decodable) into a target directory under
the name `<original-name>.<ext>`, and optionally archives files older than
365 days into 4-digit-year subdirectories of the target.

Modelling choices:
- Paths are lists of components (`List String`); each Rust `join` argument is
  one component.
- The filesystem is an association list from paths to nodes (regular file with
  byte contents, or directory); the first binding for a path wins, and
  removal deletes every binding of the path.
- Machine integers (`u32` image dimensions) are `Nat`; dates are `Int` values
  counting days, so `Local::today() - Duration::days(365)` is subtraction and
  `chrono` date comparison is integer comparison.
- Fallible external calls (image sniffing and decoding, `fs::copy`,
  `fs::create_dir`, `fs::remove_file`, year extraction from a date) are
  supplied by an `Env` oracle so that each error path of the source is
  representable.
- Directory listings (`read_dir`) are supplied as
  `Except IOError (List (Except IOError entry))`: the outer error models a
  failed `read_dir` call, the inner ones model failed entries.
-/

namespace SpotlightSave

/-- A filesystem path, one Rust `join` component per element. -/
abbrev Path := List String

/-- File contents as a byte list (values of the bytes are immaterial). -/
abbrev Bytes := List Nat

/-- A filesystem object: a regular file with contents, or a directory. -/
inductive Node where
  | file (data : Bytes)
  | dir
deriving DecidableEq

/-- The filesystem: an association list from paths to nodes. -/
abbrev FS := List (Path × Node)

/-- Look a path up in the filesystem; the first binding wins. -/
def lookupFS : FS → Path → Option Node
  | [], _ => none
  | (q, n) :: s, p => if p = q then some n else lookupFS s p

/-- Remove every binding of a path from the filesystem (models `fs::remove_file`). -/
def removeFS : FS → Path → FS
  | [], _ => []
  | (q, n) :: s, p => if q = p then removeFS s p else (q, n) :: removeFS s p

/-- Error kinds of `std::io::Error` that the program distinguishes. -/
inductive IOErrorKind where
  | notFound
  | permissionDenied
  | other
deriving DecidableEq

/-- A `std::io::Error`: a kind plus a message. -/
structure IOError where
  kind : IOErrorKind
  msg : String
deriving DecidableEq

/-- The image formats of the `image` crate (`image::ImageFormat`). -/
inductive ImageFormat where
  | Png | Jpeg | Gif | WebP | Pnm | Tiff | Tga | Dds
  | Bmp | Ico | Hdr | OpenExr | Farbfeld | Avif | Qoi
deriving DecidableEq

/-- The extension table of the `image` crate: `ImageFormat::extensions_str`
returns a fixed static slice per format; the program takes its first element.
Modelled from the image crate (0.24 series) source. -/
def ImageFormat.extensions_str : ImageFormat → List String
  | .Png => ["png"]
  | .Jpeg => ["jpg", "jpeg"]
  | .Gif => ["gif"]
  | .WebP => ["webp"]
  | .Pnm => ["pbm", "pam", "ppm", "pgm"]
  | .Tiff => ["tiff", "tif"]
  | .Tga => ["tga"]
  | .Dds => ["dds"]
  | .Bmp => ["bmp"]
  | .Ico => ["ico"]
  | .Hdr => ["hdr"]
  | .OpenExr => ["exr"]
  | .Farbfeld => ["ff"]
  | .Avif => ["avif"]
  | .Qoi => ["qoi"]

/-- The canonical extension of a format: the head of its extension list.
This is the one fixed extension per format that the save stage uses. -/
def canonicalExt (f : ImageFormat) : String :=
  (f.extensions_str).headD ""

/-- Outcome of the open/sniff/decode pipeline of `save_image` for one file:
mirrors the four early-return error points of the source
(`Reader::open`, `with_guessed_format`, `format()`, `decode()`) and the
success case carrying the detected format and the decoded dimensions. -/
inductive SniffResult where
  | openErr
  | guessErr
  | noFormat
  | decodeErr (format : ImageFormat)
  | ok (format : ImageFormat) (width height : Nat)

/-- The environment oracle: outcomes of the external calls the program makes.
`sniff` is keyed on file contents (content-based detection); the three
failure oracles inject I/O errors for `fs::copy`, `fs::create_dir` and
`fs::remove_file` at a given destination path; `yearOf` is the calendar year
of a day-count date (`chrono` date-to-year). -/
structure Env where
  sniff : Bytes → SniffResult
  copyFail : Path → Option IOError
  createDirFail : Path → Option IOError
  removeFail : Path → Option IOError
  yearOf : Int → Int

/-- The program configuration (struct `Config` of the source). -/
structure Config where
  target : Path
  verbose : Bool
  archive : Bool

/-- A `read_dir` entry of the Spotlight source directory: its file name,
whether `path.is_file()` holds, and its contents. -/
structure SpotEntry where
  name : String
  isFile : Bool
  content : Bytes

/-- A `read_dir` entry of the package directory seen by `get_spotlight_dir`. -/
structure PkgEntry where
  name : String
  isDir : Bool

/-- The fixed package-name test of `get_spotlight_dir`: the Rust
`starts_with` call, modelled as a prefix test on the character sequence. -/
def isSpotlightPkg (name : String) : Bool :=
  List.isPrefixOf "Microsoft.Windows.ContentDeliveryManager_".data name.data

/-- Loop body of `get_spotlight_dir`: scan the entries of the package
directory, propagate entry errors, skip non-directories, and return the
asset subfolder of the first directory whose name has the fixed package
name beginning; `NotFound` if none matches. -/
def spotlight_scan (home : Path) : List (Except IOError PkgEntry) → Except IOError Path
  | [] => Except.error ⟨IOErrorKind.notFound, "Can not find Spotlight image dir"⟩
  | Except.error e :: _ => Except.error e
  | Except.ok en :: rest =>
    if en.isDir && isSpotlightPkg en.name then
      Except.ok (home ++ ["AppData\\Local\\Packages", en.name, "LocalState\\Assets"])
    else
      spotlight_scan home rest

/-- The function `get_spotlight_dir` of the source: `read_dir` the package
directory (its outcome is the `entries` argument) and scan the entries. -/
def get_spotlight_dir (home : Path) (entries : Except IOError (List (Except IOError PkgEntry))) :
    Except IOError Path :=
  match entries with
  | Except.error e => Except.error e
  | Except.ok l => spotlight_scan home l

/-- The function `save_image` of the source: sniff and decode the file,
apply the dimension filter, build the destination name from the detected
format, skip if the destination exists, otherwise copy; returns whether the
file was saved, together with the filesystem after the call. -/
def save_image (env : Env) (target : Path) (en : SpotEntry) (fs : FS) : Bool × FS :=
  match env.sniff en.content with
  | .openErr => (false, fs)
  | .guessErr => (false, fs)
  | .noFormat => (false, fs)
  | .decodeErr _ => (false, fs)
  | .ok format width height =>
    if width < height ∨ width < 800 ∨ height < 600 then (false, fs)
    else
      let filename := en.name ++ "." ++ (format.extensions_str).headD ""
      let target_file := target ++ [filename]
      if (lookupFS fs target_file).isSome then (false, fs)
      else
        match env.copyFail target_file with
        | some _ => (false, fs)
        | none => (true, (target_file, Node.file en.content) :: fs)

/-- Loop of `save_images` over the source directory entries: propagate entry
errors, skip non-files, call `save_image` on files and count the saves.
Returns the final count, the final filesystem, and the error on which the
loop aborted, if any. -/
def save_loop (env : Env) (target : Path) :
    List (Except IOError SpotEntry) → Nat → FS → Nat × FS × Option IOError
  | [], count, fs => (count, fs, none)
  | Except.error e :: _, count, fs => (count, fs, some e)
  | Except.ok en :: rest, count, fs =>
    if en.isFile then
      let r := save_image env target en fs
      save_loop env target rest (if r.1 then count + 1 else count) r.2
    else
      save_loop env target rest count fs

/-- The function `save_images` of the source: locate the Spotlight directory
(aborting on failure), `read_dir` it (outcome `srcList`), and run the save
loop over the entries. -/
def save_images (env : Env) (config : Config) (home : Path)
    (pkgList : Except IOError (List (Except IOError PkgEntry)))
    (srcList : Except IOError (List (Except IOError SpotEntry)))
    (fs : FS) : Nat × FS × Option IOError :=
  match get_spotlight_dir home pkgList with
  | Except.error e => (0, fs, some e)
  | Except.ok _ =>
    match srcList with
    | Except.error e => (0, fs, some e)
    | Except.ok l => save_loop env config.target l 0 fs

/-- Metadata of a file as `entry.metadata()` exposes it: the
last-modified and creation times, each possibly unavailable, already
converted to local calendar dates in day counts. -/
structure ArchMeta where
  modified : Option Int
  created : Option Int

/-- A `read_dir` entry of the target directory seen by the archive stage:
its file name, and the outcome of `entry.metadata()`. -/
structure ArchEntry where
  name : String
  meta : Option ArchMeta

/-- The effective timestamp chain of the source: last-modified time, else
creation time, else nothing. -/
def effDate (m : ArchMeta) : Option Int :=
  match m.modified with
  | some t => some t
  | none => m.created

/-- Effective date of an archive entry: nothing when `entry.metadata()`
failed or when neither time is obtainable. -/
def entryDate (en : ArchEntry) : Option Int :=
  match en.meta with
  | none => none
  | some m => effDate m

/-- Zero-pad a natural number to at least four digits (the `%Y` padding of
`chrono`). -/
def pad4 (n : Nat) : String :=
  if n < 10 then "000" ++ toString n
  else if n < 100 then "00" ++ toString n
  else if n < 1000 then "0" ++ toString n
  else toString n

/-- The `chrono` `%Y` rendering of a year used by `filedate.format("%Y")`:
the year zero-padded to four digits, with a sign for negative years. -/
def formatY (y : Int) : String :=
  if y < 0 then "-" ++ pad4 y.natAbs else pad4 y.toNat

/-- Loop of `archive_images` over the target directory entries: propagate
entry errors (aborting with the state reached), check `path.is_file()`
against the live filesystem, read the effective timestamp (skipping the file
when unavailable), and when its date is strictly before the timeline, create
the year subdirectory when missing, copy the file into it, and only then
delete the original; any `create_dir`, `copy` or `remove_file` failure
aborts with the error and the state reached. -/
def archive_loop (env : Env) (timeline : Int) (target : Path) :
    List (Except IOError ArchEntry) → FS → FS × Option IOError
  | [], fs => (fs, none)
  | Except.error e :: _, fs => (fs, some e)
  | Except.ok en :: rest, fs =>
    match lookupFS fs (target ++ [en.name]) with
    | some (Node.file b) =>
      match entryDate en with
      | none => archive_loop env timeline target rest fs
      | some filedate =>
        if filedate < timeline then
          match (if (lookupFS fs (target ++ [formatY (env.yearOf filedate)])).isSome then
                   Except.ok fs
                 else
                   match env.createDirFail (target ++ [formatY (env.yearOf filedate)]) with
                   | some e => Except.error e
                   | none =>
                     Except.ok ((target ++ [formatY (env.yearOf filedate)], Node.dir) :: fs)) with
          | Except.error e => (fs, some e)
          | Except.ok fs1 =>
            match env.copyFail (target ++ [formatY (env.yearOf filedate), en.name]) with
            | some e => (fs1, some e)
            | none =>
              let fs2 := (target ++ [formatY (env.yearOf filedate), en.name], Node.file b) :: fs1
              match env.removeFail (target ++ [en.name]) with
              | some e => (fs2, some e)
              | none => archive_loop env timeline target rest (removeFS fs2 (target ++ [en.name]))
        else
          archive_loop env timeline target rest fs
    | _ => archive_loop env timeline target rest fs

/-- The function `archive_images` of the source: compute the timeline as
today minus 365 days, `read_dir` the target directory (outcome `tgtList`),
and run the archive loop over the entries. -/
def archive_images (env : Env) (today : Int) (config : Config)
    (tgtList : Except IOError (List (Except IOError ArchEntry)))
    (fs : FS) : FS × Option IOError :=
  match tgtList with
  | Except.error e => (fs, some e)
  | Except.ok l => archive_loop env (today - 365) config.target l fs

/-- The function `run` of the source: the save stage, then, when configured,
the archive stage; the first error aborts. -/
def run (env : Env) (today : Int) (config : Config) (home : Path)
    (pkgList : Except IOError (List (Except IOError PkgEntry)))
    (srcList : Except IOError (List (Except IOError SpotEntry)))
    (tgtList : Except IOError (List (Except IOError ArchEntry)))
    (fs : FS) : FS × Option IOError :=
  let r := save_images env config home pkgList srcList fs
  match r.2.2 with
  | some e => (r.2.1, some e)
  | none =>
    if config.archive then archive_images env today config tgtList r.2.1
    else (r.2.1, none)

/-- The filesystem after one successful archive relocation of file `nm`
with effective date `d` and contents `b`: the year subdirectory is created
when missing, the copy is written into it, and the original is removed. -/
def movedFS (env : Env) (target : Path) (nm : String) (d : Int) (b : Bytes) (fs : FS) : FS :=
  removeFS
    ((target ++ [formatY (env.yearOf d), nm], Node.file b) ::
      (if (lookupFS fs (target ++ [formatY (env.yearOf d)])).isSome then fs
       else (target ++ [formatY (env.yearOf d)], Node.dir) :: fs))
    (target ++ [nm])

/-- Safety invariant of the archive stage relative to the starting
filesystem `fs0`: every regular file that was at the target root is either
still there with the same contents, or a copy with the same contents sits
in some subdirectory of the target and the root name no longer holds a
regular file. -/
def RootInv (target : Path) (fs0 s : FS) : Prop :=
  ∀ nm b, lookupFS fs0 (target ++ [nm]) = some (Node.file b) →
    lookupFS s (target ++ [nm]) = some (Node.file b) ∨
    ((∃ y, lookupFS s (target ++ [y, nm]) = some (Node.file b)) ∧
     ∀ b2, lookupFS s (target ++ [nm]) ≠ some (Node.file b2))

/-! ### Concrete environments used to exercise the development -/

/-- An environment in which every file decodes as a 1920x1080 JPEG and all
I/O succeeds. -/
def envJpegOk : Env :=
  ⟨fun _ => SniffResult.ok ImageFormat.Jpeg 1920 1080,
   fun _ => none, fun _ => none, fun _ => none, fun _ => 2023⟩

/-- An environment in which every file decodes as a 400x300 JPEG. -/
def envSmallImg : Env :=
  ⟨fun _ => SniffResult.ok ImageFormat.Jpeg 400 300,
   fun _ => none, fun _ => none, fun _ => none, fun _ => 2023⟩

/-- An environment in which opening every file fails. -/
def envOpenErr : Env :=
  ⟨fun _ => SniffResult.openErr,
   fun _ => none, fun _ => none, fun _ => none, fun _ => 2023⟩

/-- An environment in which every file decodes as a 1920x1080 JPEG but every
copy fails. -/
def envCopyErr : Env :=
  ⟨fun _ => SniffResult.ok ImageFormat.Jpeg 1920 1080,
   fun _ => some ⟨IOErrorKind.other, "copy failed"⟩,
   fun _ => none, fun _ => none, fun _ => 2023⟩

/-- An environment in which creating a directory fails. -/
def envCreateErr : Env :=
  ⟨fun _ => SniffResult.openErr, fun _ => none,
   fun _ => some ⟨IOErrorKind.permissionDenied, "mkdir failed"⟩,
   fun _ => none, fun _ => 2023⟩

/-- An environment in which removing a file fails. -/
def envRemoveErr : Env :=
  ⟨fun _ => SniffResult.openErr, fun _ => none, fun _ => none,
   fun _ => some ⟨IOErrorKind.permissionDenied, "remove failed"⟩,
   fun _ => 2023⟩

/-! ### Basic filesystem lemmas -/

theorem lookupFS_nil (p : Path) : lookupFS [] p = none := rfl

theorem lookupFS_cons (q : Path) (n : Node) (s : FS) (p : Path) :
    lookupFS ((q, n) :: s) p = if p = q then some n else lookupFS s p := rfl

theorem lookupFS_removeFS (s : FS) (q p : Path) :
    lookupFS (removeFS s q) p = if p = q then none else lookupFS s p := by
  induction s with
  | nil => simp [removeFS, lookupFS]
  | cons hd tl ih =>
    obtain ⟨k, n⟩ := hd
    by_cases hkq : k = q
    · subst hkq
      rw [removeFS, if_pos rfl, ih, lookupFS_cons]
      by_cases hpk : p = k
      · subst hpk; simp
      · simp [hpk]
    · rw [removeFS, if_neg hkq, lookupFS_cons, lookupFS_cons]
      by_cases hpk : p = k
      · subst hpk; simp [hkq]
      · simp [hpk, ih]

theorem path_one_inj (t : Path) (a b : String) : t ++ [a] = t ++ [b] ↔ a = b := by
  simp

theorem path_one_ne_two (t : Path) (a y b : String) : t ++ [a] ≠ t ++ [y, b] := by
  intro h
  have hlen := congrArg List.length h
  simp at hlen

theorem path_two_inj (t : Path) (y a z b : String) :
    t ++ [y, a] = t ++ [z, b] ↔ y = z ∧ a = b := by
  simp

/-! ### Save stage lemmas -/

/-- Every possible outcome of `save_image`: either the filesystem is
untouched and the result is `false`, or all checks passed and exactly the
one destination file was created with the source contents. -/
theorem save_image_cases (env : Env) (target : Path) (en : SpotEntry) (fs : FS) :
    save_image env target en fs = (false, fs) ∨
    ∃ format width height,
      env.sniff en.content = SniffResult.ok format width height ∧
      ¬(width < height ∨ width < 800 ∨ height < 600) ∧
      lookupFS fs (target ++ [en.name ++ "." ++ canonicalExt format]) = none ∧
      env.copyFail (target ++ [en.name ++ "." ++ canonicalExt format]) = none ∧
      save_image env target en fs =
        (true, (target ++ [en.name ++ "." ++ canonicalExt format], Node.file en.content) :: fs) := by
  unfold save_image
  cases hs : env.sniff en.content with
  | openErr => exact Or.inl rfl
  | guessErr => exact Or.inl rfl
  | noFormat => exact Or.inl rfl
  | decodeErr f => exact Or.inl rfl
  | ok format width height =>
    dsimp only
    by_cases hdim : width < height ∨ width < 800 ∨ height < 600
    · rw [if_pos hdim]; exact Or.inl rfl
    · rw [if_neg hdim]
      by_cases hex : (lookupFS fs (target ++ [en.name ++ "." ++ (format.extensions_str).headD ""])).isSome
      · rw [if_pos hex]; exact Or.inl rfl
      · rw [if_neg hex]
        cases hcp : env.copyFail (target ++ [en.name ++ "." ++ (format.extensions_str).headD ""]) with
        | some e => exact Or.inl rfl
        | none =>
          refine Or.inr ⟨format, width, height, rfl, hdim, ?_, ?_, rfl⟩
          · rw [Option.not_isSome_iff_eq_none] at hex
            exact hex
          · exact hcp

/-- When the sniff succeeds, the dimension filter passes, the destination
does not exist and the copy succeeds, `save_image` saves exactly the one
destination file. -/
theorem save_image_saves (env : Env) (target : Path) (en : SpotEntry) (fs : FS)
    (format : ImageFormat) (width height : Nat)
    (hsniff : env.sniff en.content = SniffResult.ok format width height)
    (hdim : ¬(width < height ∨ width < 800 ∨ height < 600))
    (hex : lookupFS fs (target ++ [en.name ++ "." ++ canonicalExt format]) = none)
    (hcp : env.copyFail (target ++ [en.name ++ "." ++ canonicalExt format]) = none) :
    save_image env target en fs =
      (true, (target ++ [en.name ++ "." ++ canonicalExt format], Node.file en.content) :: fs) := by
  unfold save_image
  rw [hsniff]
  dsimp only
  rw [if_neg hdim]
  rw [show en.name ++ "." ++ (format.extensions_str).headD "" =
        en.name ++ "." ++ canonicalExt format from rfl]
  rw [if_neg (by simp [hex])]
  rw [hcp]

/-- When the sniff succeeds but the dimension filter rejects, `save_image`
returns `false` and leaves the filesystem untouched. -/
theorem save_image_rejects (env : Env) (target : Path) (en : SpotEntry) (fs : FS)
    (format : ImageFormat) (width height : Nat)
    (hsniff : env.sniff en.content = SniffResult.ok format width height)
    (hdim : width < height ∨ width < 800 ∨ height < 600) :
    save_image env target en fs = (false, fs) := by
  unfold save_image
  rw [hsniff]
  dsimp only
  rw [if_pos hdim]

/-- Stepping the save loop over a regular-file entry runs `save_image` and
counts a successful save. -/
theorem save_loop_cons_file (env : Env) (target : Path) (en : SpotEntry)
    (rest : List (Except IOError SpotEntry)) (count : Nat) (fs : FS)
    (hf : en.isFile = true) :
    save_loop env target (Except.ok en :: rest) count fs =
      save_loop env target rest
        (if (save_image env target en fs).1 then count + 1 else count)
        (save_image env target en fs).2 := by
  rw [save_loop, if_pos hf]

/-- Stepping the save loop over a non-file entry skips it. -/
theorem save_loop_cons_nonfile (env : Env) (target : Path) (en : SpotEntry)
    (rest : List (Except IOError SpotEntry)) (count : Nat) (fs : FS)
    (hf : en.isFile = false) :
    save_loop env target (Except.ok en :: rest) count fs =
      save_loop env target rest count fs := by
  rw [save_loop, if_neg (by simp [hf])]

/-- C1: for a regular source file that decodes with width at least height,
width at least 800 and height at least 600, with no file already at the
destination name and a succeeding copy, the save stage creates exactly the
one destination file `target/<name>.<ext>` with bytes identical to the
source bytes and counts it as saved; a file whose decoded dimensions fail
the filter produces no output file. -/
theorem claim_C1 (env : Env) (target : Path) (en : SpotEntry)
    (rest : List (Except IOError SpotEntry)) (count : Nat) (fs : FS)
    (format : ImageFormat) (width height : Nat)
    (hsniff : env.sniff en.content = SniffResult.ok format width height) :
    ((height ≤ width ∧ 800 ≤ width ∧ 600 ≤ height ∧
      lookupFS fs (target ++ [en.name ++ "." ++ canonicalExt format]) = none ∧
      env.copyFail (target ++ [en.name ++ "." ++ canonicalExt format]) = none) →
      save_image env target en fs =
        (true, (target ++ [en.name ++ "." ++ canonicalExt format], Node.file en.content) :: fs) ∧
      (en.isFile = true →
        save_loop env target (Except.ok en :: rest) count fs =
          save_loop env target rest (count + 1)
            ((target ++ [en.name ++ "." ++ canonicalExt format], Node.file en.content) :: fs))) ∧
    ((width < height ∨ width < 800 ∨ height < 600) →
      save_image env target en fs = (false, fs)) := by
  constructor
  · rintro ⟨h1, h2, h3, hex, hcp⟩
    have hdim : ¬(width < height ∨ width < 800 ∨ height < 600) := by omega
    have hsave := save_image_saves env target en fs format width height hsniff hdim hex hcp
    refine ⟨hsave, fun hf => ?_⟩
    rw [save_loop_cons_file env target en rest count fs hf, hsave]
    rfl
  · intro hdim
    exact save_image_rejects env target en fs format width height hsniff hdim

theorem claim_C1_witness :
    save_image envJpegOk ["T"] ⟨"a", true, [7]⟩ [] =
      (true, [(["T", "a.jpg"], Node.file [7])]) ∧
    save_loop envJpegOk ["T"] [Except.ok ⟨"a", true, [7]⟩] 0 [] =
      (1, [(["T", "a.jpg"], Node.file [7])], none) := by
  have h := (claim_C1 envJpegOk ["T"] ⟨"a", true, [7]⟩ [] 0 []
      ImageFormat.Jpeg 1920 1080 rfl).1 (by decide)
  exact ⟨h.1.trans (by decide), (h.2 rfl).trans (by decide)⟩

/-- C9: the destination filename of every saved file is the original source
filename, a dot, and a lowercase extension that is a fixed function of the
detected format alone: the head of the extension list of the format, which for
JPEG is always "jpg". -/
theorem claim_C9 :
    (∀ f : ImageFormat, (f.extensions_str).headD "" = canonicalExt f) ∧
    (∀ f : ImageFormat, (canonicalExt f).data.all Char.isLower = true) ∧
    canonicalExt ImageFormat.Jpeg = "jpg" ∧
    (∀ (env : Env) (target : Path) (en : SpotEntry) (fs : FS)
       (format : ImageFormat) (width height : Nat),
       env.sniff en.content = SniffResult.ok format width height →
       (save_image env target en fs).1 = true →
       (save_image env target en fs).2 =
         (target ++ [en.name ++ "." ++ canonicalExt format], Node.file en.content) :: fs) := by
  refine ⟨fun f => rfl, fun f => by cases f <;> decide, rfl, ?_⟩
  intro env target en fs format width height hsniff hsaved
  rcases save_image_cases env target en fs with h | ⟨f, w, hh, hs, hdim, hex, hcp, heq⟩
  · rw [h] at hsaved
    simp at hsaved
  · rw [hs] at hsniff
    injection hsniff with hf hw hh2
    subst hf
    rw [heq]

theorem claim_C9_witness :
    canonicalExt ImageFormat.Jpeg = "jpg" ∧
    (save_image envJpegOk ["T"] ⟨"a", true, [7]⟩ []).2 =
      (["T"] ++ ["a" ++ "." ++ canonicalExt ImageFormat.Jpeg], Node.file [7]) :: [] :=
  ⟨claim_C9.2.2.1,
   claim_C9.2.2.2 envJpegOk ["T"] ⟨"a", true, [7]⟩ [] ImageFormat.Jpeg 1920 1080 rfl (by decide)⟩

/-- When the destination already exists, `save_image` skips the file and
leaves the filesystem untouched. -/
theorem save_image_skips_existing (env : Env) (target : Path) (en : SpotEntry) (fs : FS)
    (format : ImageFormat) (width height : Nat)
    (hsniff : env.sniff en.content = SniffResult.ok format width height)
    (hdim : ¬(width < height ∨ width < 800 ∨ height < 600))
    (hex : (lookupFS fs (target ++ [en.name ++ "." ++ canonicalExt format])).isSome) :
    save_image env target en fs = (false, fs) := by
  unfold save_image
  rw [hsniff]
  dsimp only
  rw [if_neg hdim]
  rw [show en.name ++ "." ++ (format.extensions_str).headD "" =
        en.name ++ "." ++ canonicalExt format from rfl]
  rw [if_pos hex]

/-- When the copy fails, `save_image` reports no save and leaves the
filesystem untouched. -/
theorem save_image_skips_copyfail (env : Env) (target : Path) (en : SpotEntry) (fs : FS)
    (format : ImageFormat) (width height : Nat) (e : IOError)
    (hsniff : env.sniff en.content = SniffResult.ok format width height)
    (hdim : ¬(width < height ∨ width < 800 ∨ height < 600))
    (hex : lookupFS fs (target ++ [en.name ++ "." ++ canonicalExt format]) = none)
    (hcp : env.copyFail (target ++ [en.name ++ "." ++ canonicalExt format]) = some e) :
    save_image env target en fs = (false, fs) := by
  unfold save_image
  rw [hsniff]
  dsimp only
  rw [show en.name ++ "." ++ (format.extensions_str).headD "" =
        en.name ++ "." ++ canonicalExt format from rfl]
  rw [if_neg hdim, if_neg (by simp [hex]), hcp]

/-- A sniff, guess, format or decode failure makes `save_image` return
`false` with the filesystem untouched. -/
theorem save_image_sniff_fail (env : Env) (target : Path) (en : SpotEntry) (fs : FS)
    (hs : ∀ format width height,
      env.sniff en.content ≠ SniffResult.ok format width height) :
    save_image env target en fs = (false, fs) := by
  unfold save_image
  cases h : env.sniff en.content with
  | openErr => rfl
  | guessErr => rfl
  | noFormat => rfl
  | decodeErr f => rfl
  | ok f w hh => exact absurd h (hs f w hh)

/-- The save loop only ever adds bindings: any present path stays present. -/
theorem save_loop_mono (env : Env) (target : Path) :
    ∀ (l : List (Except IOError SpotEntry)) (count : Nat) (fs : FS) (p : Path),
      (lookupFS fs p).isSome →
      (lookupFS (save_loop env target l count fs).2.1 p).isSome := by
  intro l
  induction l with
  | nil => intro count fs p hp; exact hp
  | cons hd rest ih =>
    intro count fs p hp
    cases hd with
    | error e => exact hp
    | ok en =>
      by_cases hf : en.isFile
      · rw [save_loop_cons_file env target en rest count fs hf]
        apply ih
        rcases save_image_cases env target en fs with heq | ⟨f, w, hh, _, _, _, _, heq⟩
        · rw [heq]; exact hp
        · rw [heq]
          rw [lookupFS_cons]
          by_cases hpd : p = target ++ [en.name ++ "." ++ canonicalExt f]
          · simp [hpd]
          · rw [if_neg hpd]; exact hp
      · rw [save_loop_cons_nonfile env target en rest count fs (by simpa using hf)]
        exact ih count fs p hp

/-- Replaying `save_image` on any filesystem that contains everything the
first call produced is a no-op that reports no save. -/
theorem save_image_replay (env : Env) (target : Path) (en : SpotEntry) (fs fs1 : FS)
    (H : ∀ p, (lookupFS (save_image env target en fs).2 p).isSome →
      (lookupFS fs1 p).isSome) :
    save_image env target en fs1 = (false, fs1) := by
  cases hs : env.sniff en.content with
  | openErr => exact save_image_sniff_fail env target en fs1 (by simp [hs])
  | guessErr => exact save_image_sniff_fail env target en fs1 (by simp [hs])
  | noFormat => exact save_image_sniff_fail env target en fs1 (by simp [hs])
  | decodeErr f => exact save_image_sniff_fail env target en fs1 (by simp [hs])
  | ok format width height =>
    by_cases hdim : width < height ∨ width < 800 ∨ height < 600
    · exact save_image_rejects env target en fs1 format width height hs hdim
    · by_cases hex1 : (lookupFS fs1 (target ++ [en.name ++ "." ++ canonicalExt format])).isSome
      · exact save_image_skips_existing env target en fs1 format width height hs hdim hex1
      · by_cases hex0 : (lookupFS fs (target ++ [en.name ++ "." ++ canonicalExt format])).isSome
        · have h0 := save_image_skips_existing env target en fs format width height hs hdim hex0
          rw [h0] at H
          exact absurd (H _ hex0) hex1
        · cases hcp : env.copyFail (target ++ [en.name ++ "." ++ canonicalExt format]) with
          | none =>
            have hsave := save_image_saves env target en fs format width height hs hdim
              (Option.not_isSome_iff_eq_none.mp hex0) hcp
            rw [hsave] at H
            have : (lookupFS
                ((target ++ [en.name ++ "." ++ canonicalExt format], Node.file en.content) :: fs)
                (target ++ [en.name ++ "." ++ canonicalExt format])).isSome := by
              rw [lookupFS_cons, if_pos rfl]; rfl
            exact absurd (H _ this) hex1
          | some e =>
            exact save_image_skips_copyfail env target en fs1 format width height e hs hdim
              (Option.not_isSome_iff_eq_none.mp hex1) hcp

/-- C4: the save stage is idempotent: a file whose destination already
exists is skipped with the filesystem untouched, and rerunning the whole
save loop on the filesystem a first run produced changes nothing, overwrites
nothing, and reports zero additional saves. -/
theorem claim_C4 :
    (∀ (env : Env) (target : Path) (en : SpotEntry) (fs : FS)
       (format : ImageFormat) (width height : Nat),
       env.sniff en.content = SniffResult.ok format width height →
       ¬(width < height ∨ width < 800 ∨ height < 600) →
       (lookupFS fs (target ++ [en.name ++ "." ++ canonicalExt format])).isSome →
       save_image env target en fs = (false, fs)) ∧
    (∀ (env : Env) (target : Path) (l : List SpotEntry) (count c2 : Nat) (fs : FS),
       save_loop env target (l.map Except.ok) c2
           (save_loop env target (l.map Except.ok) count fs).2.1 =
         (c2, (save_loop env target (l.map Except.ok) count fs).2.1, none)) := by
  constructor
  · exact fun env target en fs format width height hs hdim hex =>
      save_image_skips_existing env target en fs format width height hs hdim hex
  · intro env target l
    induction l with
    | nil => intro count c2 fs; rfl
    | cons en rest ih =>
      intro count c2 fs
      rw [List.map_cons]
      by_cases hf : en.isFile
      · rw [save_loop_cons_file env target en (rest.map Except.ok) count fs hf]
        have hrepl : save_image env target en
            (save_loop env target (rest.map Except.ok)
              (if (save_image env target en fs).1 then count + 1 else count)
              (save_image env target en fs).2).2.1 =
            (false, (save_loop env target (rest.map Except.ok)
              (if (save_image env target en fs).1 then count + 1 else count)
              (save_image env target en fs).2).2.1) :=
          save_image_replay env target en fs _
            (fun p hp => save_loop_mono env target (rest.map Except.ok) _ _ p hp)
        rw [save_loop_cons_file env target en (rest.map Except.ok) c2 _ hf, hrepl]
        exact ih _ c2 _
      · rw [save_loop_cons_nonfile env target en (rest.map Except.ok) count fs
          (by simpa using hf)]
        rw [save_loop_cons_nonfile env target en (rest.map Except.ok) c2 _
          (by simpa using hf)]
        exact ih count c2 fs

theorem claim_C4_witness :
    save_image envJpegOk ["T"] ⟨"a", true, [7]⟩ [(["T", "a.jpg"], Node.file [9])] =
      (false, [(["T", "a.jpg"], Node.file [9])]) ∧
    save_loop envJpegOk ["T"] ([⟨"a", true, [7]⟩].map Except.ok) 0
        (save_loop envJpegOk ["T"] ([(⟨"a", true, [7]⟩ : SpotEntry)].map Except.ok) 0 []).2.1 =
      (0, (save_loop envJpegOk ["T"] ([(⟨"a", true, [7]⟩ : SpotEntry)].map Except.ok) 0 []).2.1,
        none) :=
  ⟨claim_C4.1 envJpegOk ["T"] ⟨"a", true, [7]⟩ [(["T", "a.jpg"], Node.file [9])]
      ImageFormat.Jpeg 1920 1080 rfl (by decide) (by decide),
   claim_C4.2 envJpegOk ["T"] [⟨"a", true, [7]⟩] 0 0 []⟩

/-- C6: in the save stage, a failure to open, sniff or decode a file, a
failed dimension filter, or a failed copy never aborts the stage: the file
is skipped with the filesystem untouched, not counted, the loop continues
with the next file, and a loop over well-listed entries always finishes
without an error. -/
theorem claim_C6 (env : Env) (target : Path) (en : SpotEntry)
    (rest : List (Except IOError SpotEntry)) (count : Nat) (fs : FS) :
    (env.sniff en.content = SniffResult.openErr → save_image env target en fs = (false, fs)) ∧
    (env.sniff en.content = SniffResult.guessErr → save_image env target en fs = (false, fs)) ∧
    (env.sniff en.content = SniffResult.noFormat → save_image env target en fs = (false, fs)) ∧
    (∀ format, env.sniff en.content = SniffResult.decodeErr format →
      save_image env target en fs = (false, fs)) ∧
    (∀ format width height, env.sniff en.content = SniffResult.ok format width height →
      (width < height ∨ width < 800 ∨ height < 600) →
      save_image env target en fs = (false, fs)) ∧
    (∀ format width height e, env.sniff en.content = SniffResult.ok format width height →
      ¬(width < height ∨ width < 800 ∨ height < 600) →
      lookupFS fs (target ++ [en.name ++ "." ++ canonicalExt format]) = none →
      env.copyFail (target ++ [en.name ++ "." ++ canonicalExt format]) = some e →
      save_image env target en fs = (false, fs)) ∧
    (save_image env target en fs = (false, fs) →
      save_loop env target (Except.ok en :: rest) count fs =
        save_loop env target rest count fs) ∧
    (∀ (l : List SpotEntry) (c : Nat) (s : FS),
      (save_loop env target (l.map Except.ok) c s).2.2 = none) := by
  refine ⟨?_, ?_, ?_, ?_, ?_, ?_, ?_, ?_⟩
  · intro h; exact save_image_sniff_fail env target en fs (by simp [h])
  · intro h; exact save_image_sniff_fail env target en fs (by simp [h])
  · intro h; exact save_image_sniff_fail env target en fs (by simp [h])
  · intro f h; exact save_image_sniff_fail env target en fs (by simp [h])
  · intro format width height hs hdim
    exact save_image_rejects env target en fs format width height hs hdim
  · intro format width height e hs hdim hex hcp
    exact save_image_skips_copyfail env target en fs format width height e hs hdim hex hcp
  · intro hfalse
    by_cases hf : en.isFile
    · rw [save_loop_cons_file env target en rest count fs hf, hfalse]
      rfl
    · exact save_loop_cons_nonfile env target en rest count fs (by simpa using hf)
  · intro l
    induction l with
    | nil => intro c s; rfl
    | cons e2 l2 ih =>
      intro c s
      rw [List.map_cons]
      by_cases hf : e2.isFile
      · rw [save_loop_cons_file env target e2 (l2.map Except.ok) c s hf]
        exact ih _ _
      · rw [save_loop_cons_nonfile env target e2 (l2.map Except.ok) c s (by simpa using hf)]
        exact ih _ _

theorem claim_C6_witness :
    save_image envOpenErr ["T"] ⟨"c", true, [9]⟩ [] = (false, []) ∧
    save_image envCopyErr ["T"] ⟨"a", true, [7]⟩ [] = (false, []) ∧
    save_loop envCopyErr ["T"] [Except.ok ⟨"a", true, [7]⟩] 0 [] =
      save_loop envCopyErr ["T"] [] 0 [] ∧
    (save_loop envCopyErr ["T"] ([(⟨"a", true, [7]⟩ : SpotEntry)].map Except.ok) 0 []).2.2 =
      none := by
  have h1 := (claim_C6 envOpenErr ["T"] ⟨"c", true, [9]⟩ [] 0 []).1 rfl
  have h2 := (claim_C6 envCopyErr ["T"] ⟨"a", true, [7]⟩ [] 0 []).2.2.2.2.2.1
    ImageFormat.Jpeg 1920 1080 ⟨IOErrorKind.other, "copy failed"⟩ rfl (by decide)
    (by decide) (by decide)
  have h3 := (claim_C6 envCopyErr ["T"] ⟨"a", true, [7]⟩ [] 0 []).2.2.2.2.2.2.1 h2
  have h4 := (claim_C6 envCopyErr ["T"] ⟨"a", true, [7]⟩ [] 0 []).2.2.2.2.2.2.2
    [⟨"a", true, [7]⟩] 0 []
  exact ⟨h1, h2, h3, h4⟩

/-- C10: the save stage never modifies or deletes an existing file anywhere
(in particular not in the source cache directory): every binding of the
initial filesystem survives with identical contents, and any path the stage
creates is a fresh file directly under the target directory. -/
theorem claim_C10 (env : Env) (target : Path) (l : List (Except IOError SpotEntry))
    (count : Nat) (fs : FS) :
    (∀ p v, lookupFS fs p = some v →
      lookupFS (save_loop env target l count fs).2.1 p = some v) ∧
    (∀ p, lookupFS fs p = none →
      lookupFS (save_loop env target l count fs).2.1 p ≠ none →
      ∃ f, p = target ++ [f]) := by
  induction l generalizing count fs with
  | nil =>
    exact ⟨fun p v h => h, fun p h hne => absurd h hne⟩
  | cons hd rest ih =>
    cases hd with
    | error e =>
      exact ⟨fun p v h => h, fun p h hne => absurd h hne⟩
    | ok en =>
      by_cases hf : en.isFile
      · rw [save_loop_cons_file env target en rest count fs hf]
        rcases save_image_cases env target en fs with heq | ⟨f, w, hh, hs, hdim, hex, hcp, heq⟩
        · rw [heq]
          exact ⟨fun p v h => (ih _ _).1 p v h, fun p h hne => (ih _ _).2 p h hne⟩
        · rw [heq]
          constructor
          · intro p v hp
            apply (ih _ _).1
            rw [lookupFS_cons]
            by_cases hpd : p = target ++ [en.name ++ "." ++ canonicalExt f]
            · rw [hpd] at hp; rw [hp] at hex; exact absurd hex (by simp)
            · rw [if_neg hpd]; exact hp
          · intro p hp hne
            by_cases hpd : p = target ++ [en.name ++ "." ++ canonicalExt f]
            · exact ⟨en.name ++ "." ++ canonicalExt f, hpd⟩
            · apply (ih _ _).2 p _ hne
              rw [lookupFS_cons, if_neg hpd]
              exact hp
      · rw [save_loop_cons_nonfile env target en rest count fs (by simpa using hf)]
        exact ⟨fun p v h => (ih _ _).1 p v h, fun p h hne => (ih _ _).2 p h hne⟩

theorem claim_C10_witness :
    lookupFS (save_loop envJpegOk ["T"] [Except.ok ⟨"a", true, [7]⟩] 0
        [(["S", "a"], Node.file [7])]).2.1 ["S", "a"] = some (Node.file [7]) ∧
    (∃ f, (["T", "a.jpg"] : Path) = ["T"] ++ [f]) :=
  ⟨(claim_C10 envJpegOk ["T"] [Except.ok ⟨"a", true, [7]⟩] 0
      [(["S", "a"], Node.file [7])]).1 ["S", "a"] (Node.file [7]) (by decide),
   (claim_C10 envJpegOk ["T"] [Except.ok ⟨"a", true, [7]⟩] 0
      [(["S", "a"], Node.file [7])]).2 ["T", "a.jpg"] (by decide) (by decide)⟩

/-! ### Archive stage step lemmas -/

/-- An entry whose path is not a regular file at the target root is skipped. -/
theorem archive_loop_skip_nonfile (env : Env) (T : Int) (target : Path) (en : ArchEntry)
    (rest : List (Except IOError ArchEntry)) (fs : FS)
    (h : ∀ b, lookupFS fs (target ++ [en.name]) ≠ some (Node.file b)) :
    archive_loop env T target (Except.ok en :: rest) fs =
      archive_loop env T target rest fs := by
  rw [archive_loop]
  cases hlk : lookupFS fs (target ++ [en.name]) with
  | none => rfl
  | some node =>
    cases node with
    | file b => exact absurd hlk (h b)
    | dir => rfl

/-- An entry with no obtainable effective timestamp is skipped. -/
theorem archive_loop_skip_nodate (env : Env) (T : Int) (target : Path) (en : ArchEntry)
    (rest : List (Except IOError ArchEntry)) (fs : FS) (b : Bytes)
    (hlk : lookupFS fs (target ++ [en.name]) = some (Node.file b))
    (hdate : entryDate en = none) :
    archive_loop env T target (Except.ok en :: rest) fs =
      archive_loop env T target rest fs := by
  rw [archive_loop, hlk]
  dsimp only
  rw [hdate]

/-- An entry whose effective date is not strictly before the timeline is
left untouched. -/
theorem archive_loop_skip_recent (env : Env) (T : Int) (target : Path) (en : ArchEntry)
    (rest : List (Except IOError ArchEntry)) (fs : FS) (b : Bytes) (d : Int)
    (hlk : lookupFS fs (target ++ [en.name]) = some (Node.file b))
    (hdate : entryDate en = some d)
    (hge : ¬(d < T)) :
    archive_loop env T target (Except.ok en :: rest) fs =
      archive_loop env T target rest fs := by
  rw [archive_loop, hlk]
  dsimp only
  rw [hdate]
  dsimp only
  rw [if_neg hge]

/-- An old entry is relocated when the year directory can be provided and
copy and remove succeed: the loop continues on the relocated filesystem. -/
theorem archive_loop_move (env : Env) (T : Int) (target : Path) (en : ArchEntry)
    (rest : List (Except IOError ArchEntry)) (fs : FS) (b : Bytes) (d : Int)
    (hlk : lookupFS fs (target ++ [en.name]) = some (Node.file b))
    (hdate : entryDate en = some d)
    (hlt : d < T)
    (hcd : lookupFS fs (target ++ [formatY (env.yearOf d)]) = none →
      env.createDirFail (target ++ [formatY (env.yearOf d)]) = none)
    (hcp : env.copyFail (target ++ [formatY (env.yearOf d), en.name]) = none)
    (hrm : env.removeFail (target ++ [en.name]) = none) :
    archive_loop env T target (Except.ok en :: rest) fs =
      archive_loop env T target rest (movedFS env target en.name d b fs) := by
  rw [archive_loop, hlk]
  dsimp only
  rw [hdate]
  dsimp only
  rw [if_pos hlt]
  unfold movedFS
  by_cases hdir : (lookupFS fs (target ++ [formatY (env.yearOf d)])).isSome
  · rw [if_pos hdir, if_pos hdir]
    dsimp only
    rw [hcp]
    dsimp only
    rw [hrm]
  · rw [if_neg hdir, if_neg hdir]
    rw [hcd (Option.not_isSome_iff_eq_none.mp hdir)]
    dsimp only
    rw [hcp]
    dsimp only
    rw [hrm]

/-- A failing year-directory creation aborts the archive loop at once with
that error, with the filesystem unchanged, regardless of remaining entries. -/
theorem archive_loop_createFail (env : Env) (T : Int) (target : Path) (en : ArchEntry)
    (rest : List (Except IOError ArchEntry)) (fs : FS) (b : Bytes) (d : Int) (e : IOError)
    (hlk : lookupFS fs (target ++ [en.name]) = some (Node.file b))
    (hdate : entryDate en = some d)
    (hlt : d < T)
    (hdir : lookupFS fs (target ++ [formatY (env.yearOf d)]) = none)
    (hcd : env.createDirFail (target ++ [formatY (env.yearOf d)]) = some e) :
    archive_loop env T target (Except.ok en :: rest) fs = (fs, some e) := by
  rw [archive_loop, hlk]
  dsimp only
  rw [hdate]
  dsimp only
  rw [if_pos hlt]
  rw [if_neg (by simp [hdir])]
  rw [hcd]

/-- A failing copy into the year directory aborts the archive loop at once
with that error; only the possible directory creation has happened. -/
theorem archive_loop_copyFail (env : Env) (T : Int) (target : Path) (en : ArchEntry)
    (rest : List (Except IOError ArchEntry)) (fs : FS) (b : Bytes) (d : Int) (e : IOError)
    (hlk : lookupFS fs (target ++ [en.name]) = some (Node.file b))
    (hdate : entryDate en = some d)
    (hlt : d < T)
    (hcd : lookupFS fs (target ++ [formatY (env.yearOf d)]) = none →
      env.createDirFail (target ++ [formatY (env.yearOf d)]) = none)
    (hcp : env.copyFail (target ++ [formatY (env.yearOf d), en.name]) = some e) :
    archive_loop env T target (Except.ok en :: rest) fs =
      ((if (lookupFS fs (target ++ [formatY (env.yearOf d)])).isSome then fs
        else (target ++ [formatY (env.yearOf d)], Node.dir) :: fs), some e) := by
  rw [archive_loop, hlk]
  dsimp only
  rw [hdate]
  dsimp only
  rw [if_pos hlt]
  by_cases hdir : (lookupFS fs (target ++ [formatY (env.yearOf d)])).isSome
  · rw [if_pos hdir, if_pos hdir]
    dsimp only
    rw [hcp]
  · rw [if_neg hdir, if_neg hdir]
    rw [hcd (Option.not_isSome_iff_eq_none.mp hdir)]
    dsimp only
    rw [hcp]

/-- A failing delete of the original aborts the archive loop at once with
that error; the copy has already been written. -/
theorem archive_loop_removeFail (env : Env) (T : Int) (target : Path) (en : ArchEntry)
    (rest : List (Except IOError ArchEntry)) (fs : FS) (b : Bytes) (d : Int) (e : IOError)
    (hlk : lookupFS fs (target ++ [en.name]) = some (Node.file b))
    (hdate : entryDate en = some d)
    (hlt : d < T)
    (hcd : lookupFS fs (target ++ [formatY (env.yearOf d)]) = none →
      env.createDirFail (target ++ [formatY (env.yearOf d)]) = none)
    (hcp : env.copyFail (target ++ [formatY (env.yearOf d), en.name]) = none)
    (hrm : env.removeFail (target ++ [en.name]) = some e) :
    archive_loop env T target (Except.ok en :: rest) fs =
      ((target ++ [formatY (env.yearOf d), en.name], Node.file b) ::
        (if (lookupFS fs (target ++ [formatY (env.yearOf d)])).isSome then fs
         else (target ++ [formatY (env.yearOf d)], Node.dir) :: fs), some e) := by
  rw [archive_loop, hlk]
  dsimp only
  rw [hdate]
  dsimp only
  rw [if_pos hlt]
  by_cases hdir : (lookupFS fs (target ++ [formatY (env.yearOf d)])).isSome
  · rw [if_pos hdir, if_pos hdir]
    dsimp only
    rw [hcp]
    dsimp only
    rw [hrm]
  · rw [if_neg hdir, if_neg hdir]
    rw [hcd (Option.not_isSome_iff_eq_none.mp hdir)]
    dsimp only
    rw [hcp]
    dsimp only
    rw [hrm]

/-- C2: the archive stage relocates a root file into the 4-digit-year
subdirectory of its effective date exactly when that date is strictly
earlier than today minus 365 days; a file with no obtainable timestamp, or
an effective date at or after the cutoff, is left completely untouched. -/
theorem claim_C2 (env : Env) (today : Int) (target : Path) (en : ArchEntry)
    (rest : List (Except IOError ArchEntry)) (fs : FS) (b : Bytes)
    (hlk : lookupFS fs (target ++ [en.name]) = some (Node.file b)) :
    (entryDate en = none →
      archive_loop env (today - 365) target (Except.ok en :: rest) fs =
        archive_loop env (today - 365) target rest fs) ∧
    (∀ d, entryDate en = some d → today - 365 ≤ d →
      archive_loop env (today - 365) target (Except.ok en :: rest) fs =
        archive_loop env (today - 365) target rest fs) ∧
    (∀ d, entryDate en = some d → d < today - 365 →
      (lookupFS fs (target ++ [formatY (env.yearOf d)]) = none →
        env.createDirFail (target ++ [formatY (env.yearOf d)]) = none) →
      env.copyFail (target ++ [formatY (env.yearOf d), en.name]) = none →
      env.removeFail (target ++ [en.name]) = none →
      archive_loop env (today - 365) target (Except.ok en :: rest) fs =
        archive_loop env (today - 365) target rest (movedFS env target en.name d b fs) ∧
      lookupFS (movedFS env target en.name d b fs)
        (target ++ [formatY (env.yearOf d), en.name]) = some (Node.file b) ∧
      lookupFS (movedFS env target en.name d b fs) (target ++ [en.name]) = none) := by
  refine ⟨?_, ?_, ?_⟩
  · intro hdate
    exact archive_loop_skip_nodate env (today - 365) target en rest fs b hlk hdate
  · intro d hdate hge
    exact archive_loop_skip_recent env (today - 365) target en rest fs b d hlk hdate
      (by omega)
  · intro d hdate hlt hcd hcp hrm
    refine ⟨archive_loop_move env (today - 365) target en rest fs b d hlk hdate hlt hcd hcp hrm,
      ?_, ?_⟩
    · unfold movedFS
      rw [lookupFS_removeFS,
        if_neg (fun h => path_one_ne_two target en.name (formatY (env.yearOf d)) en.name h.symm),
        lookupFS_cons, if_pos rfl]
    · unfold movedFS
      rw [lookupFS_removeFS, if_pos rfl]

theorem claim_C2_witness :
    archive_loop envJpegOk (1000 - 365) ["T"]
        [Except.ok ⟨"old.jpg", some ⟨some 600, none⟩⟩]
        [(["T", "old.jpg"], Node.file [1]), (["T", "new.jpg"], Node.file [2])] =
      archive_loop envJpegOk (1000 - 365) ["T"] []
        (movedFS envJpegOk ["T"] "old.jpg" 600 [1]
          [(["T", "old.jpg"], Node.file [1]), (["T", "new.jpg"], Node.file [2])]) ∧
    lookupFS (movedFS envJpegOk ["T"] "old.jpg" 600 [1]
        [(["T", "old.jpg"], Node.file [1]), (["T", "new.jpg"], Node.file [2])])
      ["T", "2023", "old.jpg"] = some (Node.file [1]) ∧
    lookupFS (movedFS envJpegOk ["T"] "old.jpg" 600 [1]
        [(["T", "old.jpg"], Node.file [1]), (["T", "new.jpg"], Node.file [2])])
      ["T", "old.jpg"] = none ∧
    archive_loop envJpegOk (1000 - 365) ["T"]
        [Except.ok ⟨"new.jpg", some ⟨some 990, none⟩⟩]
        [(["T", "new.jpg"], Node.file [2])] =
      archive_loop envJpegOk (1000 - 365) ["T"] [] [(["T", "new.jpg"], Node.file [2])] := by
  have hmove := (claim_C2 envJpegOk 1000 ["T"] ⟨"old.jpg", some ⟨some 600, none⟩⟩ []
      [(["T", "old.jpg"], Node.file [1]), (["T", "new.jpg"], Node.file [2])] [1]
      (by decide)).2.2 600 rfl (by decide) (fun _ => rfl) rfl rfl
  have hnew := (claim_C2 envJpegOk 1000 ["T"] ⟨"new.jpg", some ⟨some 990, none⟩⟩ []
      [(["T", "new.jpg"], Node.file [2])] [2] (by decide)).2.1 990 rfl (by decide)
  refine ⟨hmove.1, ?_, hmove.2.2, hnew⟩
  have h2 := hmove.2.1
  have hpath : (["T"] : Path) ++ [formatY (envJpegOk.yearOf 600), "old.jpg"] =
      ["T", "2023", "old.jpg"] := by decide
  rw [hpath] at h2
  exact h2

/-- C5: any I/O failure while creating the year subdirectory, copying the
file into it, or deleting the original aborts the whole archive loop at
once with that error: the result does not depend on the remaining entries. -/
theorem claim_C5 (env : Env) (today : Int) (target : Path) (en : ArchEntry)
    (rest : List (Except IOError ArchEntry)) (fs : FS) (b : Bytes) (d : Int)
    (hlk : lookupFS fs (target ++ [en.name]) = some (Node.file b))
    (hdate : entryDate en = some d)
    (hlt : d < today - 365) :
    (∀ e, lookupFS fs (target ++ [formatY (env.yearOf d)]) = none →
      env.createDirFail (target ++ [formatY (env.yearOf d)]) = some e →
      archive_loop env (today - 365) target (Except.ok en :: rest) fs = (fs, some e)) ∧
    (∀ e, (lookupFS fs (target ++ [formatY (env.yearOf d)]) = none →
        env.createDirFail (target ++ [formatY (env.yearOf d)]) = none) →
      env.copyFail (target ++ [formatY (env.yearOf d), en.name]) = some e →
      archive_loop env (today - 365) target (Except.ok en :: rest) fs =
        ((if (lookupFS fs (target ++ [formatY (env.yearOf d)])).isSome then fs
          else (target ++ [formatY (env.yearOf d)], Node.dir) :: fs), some e)) ∧
    (∀ e, (lookupFS fs (target ++ [formatY (env.yearOf d)]) = none →
        env.createDirFail (target ++ [formatY (env.yearOf d)]) = none) →
      env.copyFail (target ++ [formatY (env.yearOf d), en.name]) = none →
      env.removeFail (target ++ [en.name]) = some e →
      archive_loop env (today - 365) target (Except.ok en :: rest) fs =
        ((target ++ [formatY (env.yearOf d), en.name], Node.file b) ::
          (if (lookupFS fs (target ++ [formatY (env.yearOf d)])).isSome then fs
           else (target ++ [formatY (env.yearOf d)], Node.dir) :: fs), some e)) := by
  refine ⟨?_, ?_, ?_⟩
  · intro e hdir hcd
    exact archive_loop_createFail env (today - 365) target en rest fs b d e hlk hdate hlt
      hdir hcd
  · intro e hcd hcp
    exact archive_loop_copyFail env (today - 365) target en rest fs b d e hlk hdate hlt
      hcd hcp
  · intro e hcd hcp hrm
    exact archive_loop_removeFail env (today - 365) target en rest fs b d e hlk hdate hlt
      hcd hcp hrm

theorem claim_C5_witness :
    archive_loop envCreateErr (1000 - 365) ["T"]
        [Except.ok ⟨"old.jpg", some ⟨some 600, none⟩⟩,
         Except.ok ⟨"old2.jpg", some ⟨some 500, none⟩⟩]
        [(["T", "old.jpg"], Node.file [1]), (["T", "old2.jpg"], Node.file [2])] =
      ([(["T", "old.jpg"], Node.file [1]), (["T", "old2.jpg"], Node.file [2])],
        some ⟨IOErrorKind.permissionDenied, "mkdir failed"⟩) ∧
    archive_loop envRemoveErr (1000 - 365) ["T"]
        [Except.ok ⟨"old.jpg", some ⟨some 600, none⟩⟩,
         Except.ok ⟨"old2.jpg", some ⟨some 500, none⟩⟩]
        [(["T", "old.jpg"], Node.file [1]), (["T", "old2.jpg"], Node.file [2])] =
      ((["T", "2023", "old.jpg"], Node.file [1]) ::
        (["T", "2023"], Node.dir) ::
        [(["T", "old.jpg"], Node.file [1]), (["T", "old2.jpg"], Node.file [2])],
        some ⟨IOErrorKind.permissionDenied, "remove failed"⟩) := by
  have h1 := (claim_C5 envCreateErr 1000 ["T"] ⟨"old.jpg", some ⟨some 600, none⟩⟩
      [Except.ok ⟨"old2.jpg", some ⟨some 500, none⟩⟩]
      [(["T", "old.jpg"], Node.file [1]), (["T", "old2.jpg"], Node.file [2])] [1] 600
      (by decide) rfl (by decide)).1
      ⟨IOErrorKind.permissionDenied, "mkdir failed"⟩ (by decide) rfl
  have h2 := (claim_C5 envRemoveErr 1000 ["T"] ⟨"old.jpg", some ⟨some 600, none⟩⟩
      [Except.ok ⟨"old2.jpg", some ⟨some 500, none⟩⟩]
      [(["T", "old.jpg"], Node.file [1]), (["T", "old2.jpg"], Node.file [2])] [1] 600
      (by decide) rfl (by decide)).2.2
      ⟨IOErrorKind.permissionDenied, "remove failed"⟩ (fun _ => rfl) rfl rfl
  exact ⟨h1, h2.trans (by decide)⟩

/-! ### The copy-then-delete safety invariant -/

/-- Creating a directory at a previously absent path preserves the root
invariant. -/
theorem rootInv_cons_dir (target : Path) (fs0 s : FS) (q : Path)
    (hq : lookupFS s q = none) (hinv : RootInv target fs0 s) :
    RootInv target fs0 ((q, Node.dir) :: s) := by
  intro nm b h0
  rcases hinv nm b h0 with hs | ⟨⟨y, hy⟩, hnf⟩
  · left
    have hne : target ++ [nm] ≠ q := by
      intro h
      rw [h, hq] at hs
      exact Option.noConfusion hs
    rw [lookupFS_cons, if_neg hne]
    exact hs
  · right
    constructor
    · refine ⟨y, ?_⟩
      have hne : target ++ [y, nm] ≠ q := by
        intro h
        rw [h, hq] at hy
        exact Option.noConfusion hy
      rw [lookupFS_cons, if_neg hne]
      exact hy
    · intro b2
      rw [lookupFS_cons]
      by_cases hq1 : target ++ [nm] = q
      · rw [if_pos hq1]
        simp
      · rw [if_neg hq1]
        exact hnf b2

/-- Writing the archive copy of a root file preserves the root invariant. -/
theorem rootInv_copy (target : Path) (fs0 s : FS) (n0 y0 : String) (b0 : Bytes)
    (hsrc : lookupFS s (target ++ [n0]) = some (Node.file b0))
    (hinv : RootInv target fs0 s) :
    RootInv target fs0 ((target ++ [y0, n0], Node.file b0) :: s) := by
  intro nm b h0
  rcases hinv nm b h0 with hs | ⟨⟨y, hy⟩, hnf⟩
  · left
    rw [lookupFS_cons, if_neg (path_one_ne_two target nm y0 n0)]
    exact hs
  · right
    refine ⟨⟨y, ?_⟩, ?_⟩
    · rw [lookupFS_cons]
      by_cases he : target ++ [y, nm] = target ++ [y0, n0]
      · exfalso
        have hinj := (path_two_inj target y nm y0 n0).mp he
        exact hnf b0 (hinj.2 ▸ hsrc)
      · rw [if_neg he]
        exact hy
    · intro b2
      rw [lookupFS_cons, if_neg (path_one_ne_two target nm y0 n0)]
      exact hnf b2

/-- The state right after the copy step (year directory possibly created,
copy written, original not yet deleted) satisfies the root invariant. -/
theorem rootInv_copyState (target : Path) (fs0 s s1 : FS) (n0 y0 : String) (b0 : Bytes)
    (hsrc : lookupFS s (target ++ [n0]) = some (Node.file b0))
    (hs1 : s1 = s ∨ (s1 = (target ++ [y0], Node.dir) :: s ∧
      lookupFS s (target ++ [y0]) = none))
    (hinv : RootInv target fs0 s) :
    RootInv target fs0 ((target ++ [y0, n0], Node.file b0) :: s1) := by
  have hsrc1 : lookupFS s1 (target ++ [n0]) = some (Node.file b0) := by
    rcases hs1 with rfl | ⟨rfl, hq⟩
    · exact hsrc
    · have hne : target ++ [n0] ≠ target ++ [y0] := by
        intro h
        rw [h, hq] at hsrc
        exact Option.noConfusion hsrc
      rw [lookupFS_cons, if_neg hne]
      exact hsrc
  have hinv1 : RootInv target fs0 s1 := by
    rcases hs1 with rfl | ⟨rfl, hq⟩
    · exact hinv
    · exact rootInv_cons_dir target fs0 s _ hq hinv
  exact rootInv_copy target fs0 s1 n0 y0 b0 hsrc1 hinv1

/-- Deleting the original after its copy has been written preserves the
root invariant. -/
theorem rootInv_move (target : Path) (fs0 s s1 : FS) (n0 y0 : String) (b0 : Bytes)
    (hsrc : lookupFS s (target ++ [n0]) = some (Node.file b0))
    (hs1 : s1 = s ∨ (s1 = (target ++ [y0], Node.dir) :: s ∧
      lookupFS s (target ++ [y0]) = none))
    (hinv : RootInv target fs0 s) :
    RootInv target fs0
      (removeFS ((target ++ [y0, n0], Node.file b0) :: s1) (target ++ [n0])) := by
  have hinv2 := rootInv_copyState target fs0 s s1 n0 y0 b0 hsrc hs1 hinv
  intro nm b h0
  by_cases hnm : nm = n0
  · subst hnm
    have hb : b = b0 := by
      rcases hinv nm b h0 with hs2 | ⟨_, hnf⟩
      · rw [hsrc] at hs2
        injection hs2 with h
        injection h with h2
        exact h2.symm
      · exact absurd hsrc (hnf b0)
    subst hb
    right
    constructor
    · refine ⟨y0, ?_⟩
      rw [lookupFS_removeFS,
        if_neg (fun h => path_one_ne_two target nm y0 nm h.symm),
        lookupFS_cons, if_pos rfl]
    · intro b2
      rw [lookupFS_removeFS, if_pos rfl]
      simp
  · have hroot_ne : target ++ [nm] ≠ target ++ [n0] := by
      intro h
      exact hnm ((path_one_inj target nm n0).mp h)
    rcases hinv2 nm b h0 with hs2 | ⟨⟨y, hy⟩, hnf⟩
    · left
      rw [lookupFS_removeFS, if_neg hroot_ne]
      exact hs2
    · right
      refine ⟨⟨y, ?_⟩, ?_⟩
      · rw [lookupFS_removeFS,
          if_neg (fun h => path_one_ne_two target n0 y nm h.symm)]
        exact hy
      · intro b2
        rw [lookupFS_removeFS, if_neg hroot_ne]
        exact hnf b2

/-- One successful relocation preserves the root invariant. -/
theorem rootInv_movedFS (env : Env) (target : Path) (fs0 s : FS) (nm : String)
    (d : Int) (b : Bytes)
    (hsrc : lookupFS s (target ++ [nm]) = some (Node.file b))
    (hinv : RootInv target fs0 s) :
    RootInv target fs0 (movedFS env target nm d b s) := by
  unfold movedFS
  by_cases hdir : (lookupFS s (target ++ [formatY (env.yearOf d)])).isSome
  · rw [if_pos hdir]
    exact rootInv_move target fs0 s s nm (formatY (env.yearOf d)) b hsrc (Or.inl rfl) hinv
  · rw [if_neg hdir]
    exact rootInv_move target fs0 s _ nm (formatY (env.yearOf d)) b hsrc
      (Or.inr ⟨rfl, Option.not_isSome_iff_eq_none.mp hdir⟩) hinv

/-- The archive loop preserves the root invariant, whether it finishes or
aborts on an error. -/
theorem archive_loop_rootInv (env : Env) (T : Int) (target : Path) (fs0 : FS) :
    ∀ (l : List (Except IOError ArchEntry)) (s : FS),
      RootInv target fs0 s →
      RootInv target fs0 (archive_loop env T target l s).1 := by
  intro l
  induction l with
  | nil => intro s hinv; exact hinv
  | cons hd rest ih =>
    intro s hinv
    cases hd with
    | error e => exact hinv
    | ok en =>
      cases hlk : lookupFS s (target ++ [en.name]) with
      | none =>
        rw [archive_loop_skip_nonfile env T target en rest s (by simp [hlk])]
        exact ih s hinv
      | some node =>
        cases node with
        | dir =>
          rw [archive_loop_skip_nonfile env T target en rest s (by simp [hlk])]
          exact ih s hinv
        | file b =>
          cases hdate : entryDate en with
          | none =>
            rw [archive_loop_skip_nodate env T target en rest s b hlk hdate]
            exact ih s hinv
          | some d =>
            by_cases hlt : d < T
            · by_cases hdir : (lookupFS s (target ++ [formatY (env.yearOf d)])).isSome
              · cases hcp : env.copyFail (target ++ [formatY (env.yearOf d), en.name]) with
                | some e =>
                  rw [archive_loop_copyFail env T target en rest s b d e hlk hdate hlt
                    (fun h => absurd hdir (by simp [h])) hcp]
                  rw [if_pos hdir]
                  exact hinv
                | none =>
                  cases hrm : env.removeFail (target ++ [en.name]) with
                  | some e =>
                    rw [archive_loop_removeFail env T target en rest s b d e hlk hdate hlt
                      (fun h => absurd hdir (by simp [h])) hcp hrm]
                    rw [if_pos hdir]
                    exact rootInv_copyState target fs0 s s en.name
                      (formatY (env.yearOf d)) b hlk (Or.inl rfl) hinv
                  | none =>
                    rw [archive_loop_move env T target en rest s b d hlk hdate hlt
                      (fun h => absurd hdir (by simp [h])) hcp hrm]
                    exact ih _ (rootInv_movedFS env target fs0 s en.name d b hlk hinv)
              · have hdirn := Option.not_isSome_iff_eq_none.mp hdir
                cases hcd : env.createDirFail (target ++ [formatY (env.yearOf d)]) with
                | some e =>
                  rw [archive_loop_createFail env T target en rest s b d e hlk hdate hlt
                    hdirn hcd]
                  exact hinv
                | none =>
                  cases hcp : env.copyFail (target ++ [formatY (env.yearOf d), en.name]) with
                  | some e =>
                    rw [archive_loop_copyFail env T target en rest s b d e hlk hdate hlt
                      (fun _ => hcd) hcp]
                    rw [if_neg hdir]
                    exact rootInv_cons_dir target fs0 s _ hdirn hinv
                  | none =>
                    cases hrm : env.removeFail (target ++ [en.name]) with
                    | some e =>
                      rw [archive_loop_removeFail env T target en rest s b d e hlk hdate hlt
                        (fun _ => hcd) hcp hrm]
                      rw [if_neg hdir]
                      exact rootInv_copyState target fs0 s _ en.name
                        (formatY (env.yearOf d)) b hlk (Or.inr ⟨rfl, hdirn⟩) hinv
                    | none =>
                      rw [archive_loop_move env T target en rest s b d hlk hdate hlt
                        (fun _ => hcd) hcp hrm]
                      exact ih _ (rootInv_movedFS env target fs0 s en.name d b hlk hinv)
            · rw [archive_loop_skip_recent env T target en rest s b d hlk hdate hlt]
              exact ih s hinv

/-- C3: the archive stage deletes a file from the target root only after a
copy of it has been written into a year subdirectory: whenever a root file
is gone from the result (even of an aborted run), a byte-identical copy
exists in some subdirectory of the target. -/
theorem claim_C3 (env : Env) (today : Int) (target : Path)
    (l : List (Except IOError ArchEntry)) (fs : FS) (nm : String) (b : Bytes)
    (h0 : lookupFS fs (target ++ [nm]) = some (Node.file b))
    (hgone : lookupFS (archive_loop env (today - 365) target l fs).1 (target ++ [nm]) = none) :
    ∃ y, lookupFS (archive_loop env (today - 365) target l fs).1 (target ++ [y, nm]) =
      some (Node.file b) := by
  have hstart : RootInv target fs fs := fun nm2 b2 h => Or.inl h
  have hinv := archive_loop_rootInv env (today - 365) target fs l fs hstart
  rcases hinv nm b h0 with hs | ⟨hy, _⟩
  · rw [hgone] at hs
    exact Option.noConfusion hs
  · exact hy

theorem claim_C3_witness :
    ∃ y, lookupFS (archive_loop envJpegOk (1000 - 365) ["T"]
        [Except.ok ⟨"old.jpg", some ⟨some 600, none⟩⟩]
        [(["T", "old.jpg"], Node.file [1])]).1
      (["T"] ++ [y, "old.jpg"]) = some (Node.file [1]) :=
  claim_C3 envJpegOk 1000 ["T"]
    [Except.ok ⟨"old.jpg", some ⟨some 600, none⟩⟩]
    [(["T", "old.jpg"], Node.file [1])] "old.jpg" [1] (by decide) (by decide)

/-! ### Non-recursiveness of the archive stage -/

theorem lookupFS_cons_isSome (q : Path) (n : Node) (s : FS) (p : Path)
    (hp : (lookupFS s p).isSome) : (lookupFS ((q, n) :: s) p).isSome := by
  rw [lookupFS_cons]
  by_cases h : p = q
  · rw [if_pos h]; rfl
  · rw [if_neg h]; exact hp

theorem lookupFS_cons_none (q : Path) (n : Node) (s : FS) (p : Path)
    (h : lookupFS ((q, n) :: s) p = none) : lookupFS s p = none := by
  rw [lookupFS_cons] at h
  by_cases hpq : p = q
  · rw [if_pos hpq] at h; exact Option.noConfusion h
  · rw [if_neg hpq] at h; exact h

/-- A successful relocation of `nm` keeps every other present path present. -/
theorem lookupFS_movedFS_ne (env : Env) (target : Path) (nm : String) (d : Int)
    (b : Bytes) (s : FS) (p : Path) (hne : p ≠ target ++ [nm])
    (hp : (lookupFS s p).isSome) :
    (lookupFS (movedFS env target nm d b s) p).isSome := by
  unfold movedFS
  rw [lookupFS_removeFS, if_neg hne, lookupFS_cons]
  by_cases hb : p = target ++ [formatY (env.yearOf d), nm]
  · rw [if_pos hb]; rfl
  · rw [if_neg hb]
    by_cases hdir : (lookupFS s (target ++ [formatY (env.yearOf d)])).isSome
    · rw [if_pos hdir]; exact hp
    · rw [if_neg hdir, lookupFS_cons]
      by_cases hd2 : p = target ++ [formatY (env.yearOf d)]
      · rw [if_pos hd2]; rfl
      · rw [if_neg hd2]; exact hp

/-- Any path the archive loop removes is a direct child of the target root
named by one of the listed entries. -/
theorem archive_loop_removed_root (env : Env) (T : Int) (target : Path) :
    ∀ (l : List (Except IOError ArchEntry)) (s : FS) (p : Path),
      (lookupFS s p).isSome →
      lookupFS (archive_loop env T target l s).1 p = none →
      ∃ en : ArchEntry, Except.ok en ∈ l ∧ p = target ++ [en.name] := by
  intro l
  induction l with
  | nil =>
    intro s p hp hgone
    have h2 : lookupFS s p = none := hgone
    rw [h2] at hp
    exact absurd hp (by simp)
  | cons hd rest ih =>
    intro s p hp hgone
    cases hd with
    | error e =>
      have h2 : lookupFS s p = none := hgone
      rw [h2] at hp
      exact absurd hp (by simp)
    | ok en =>
      have step :
          ∀ h : archive_loop env T target (Except.ok en :: rest) s =
            archive_loop env T target rest s,
          ∃ en2 : ArchEntry, Except.ok en2 ∈ Except.ok en :: rest ∧
            p = target ++ [en2.name] := by
        intro h
        rw [h] at hgone
        obtain ⟨en2, hmem, hp2⟩ := ih s p hp hgone
        exact ⟨en2, List.mem_cons_of_mem _ hmem, hp2⟩
      cases hlk : lookupFS s (target ++ [en.name]) with
      | none =>
        exact step (archive_loop_skip_nonfile env T target en rest s (by simp [hlk]))
      | some node =>
        cases node with
        | dir =>
          exact step (archive_loop_skip_nonfile env T target en rest s (by simp [hlk]))
        | file b =>
          cases hdate : entryDate en with
          | none =>
            exact step (archive_loop_skip_nodate env T target en rest s b hlk hdate)
          | some d =>
            by_cases hlt : d < T
            · by_cases hdir : (lookupFS s (target ++ [formatY (env.yearOf d)])).isSome
              · cases hcp : env.copyFail (target ++ [formatY (env.yearOf d), en.name]) with
                | some e =>
                  rw [archive_loop_copyFail env T target en rest s b d e hlk hdate hlt
                    (fun h => absurd hdir (by simp [h])) hcp, if_pos hdir] at hgone
                  rw [hgone] at hp
                  exact absurd hp (by simp)
                | none =>
                  cases hrm : env.removeFail (target ++ [en.name]) with
                  | some e =>
                    rw [archive_loop_removeFail env T target en rest s b d e hlk hdate hlt
                      (fun h => absurd hdir (by simp [h])) hcp hrm, if_pos hdir] at hgone
                    rw [lookupFS_cons_none _ _ _ _ hgone] at hp
                    exact absurd hp (by simp)
                  | none =>
                    rw [archive_loop_move env T target en rest s b d hlk hdate hlt
                      (fun h => absurd hdir (by simp [h])) hcp hrm] at hgone
                    by_cases hpe : p = target ++ [en.name]
                    · exact ⟨en, List.mem_cons_self _ _, hpe⟩
                    · obtain ⟨en2, hmem, hp2⟩ := ih _ p
                        (lookupFS_movedFS_ne env target en.name d b s p hpe hp) hgone
                      exact ⟨en2, List.mem_cons_of_mem _ hmem, hp2⟩
              · have hdirn := Option.not_isSome_iff_eq_none.mp hdir
                cases hcd : env.createDirFail (target ++ [formatY (env.yearOf d)]) with
                | some e =>
                  rw [archive_loop_createFail env T target en rest s b d e hlk hdate hlt
                    hdirn hcd] at hgone
                  rw [hgone] at hp
                  exact absurd hp (by simp)
                | none =>
                  cases hcp : env.copyFail (target ++ [formatY (env.yearOf d), en.name]) with
                  | some e =>
                    rw [archive_loop_copyFail env T target en rest s b d e hlk hdate hlt
                      (fun _ => hcd) hcp, if_neg hdir] at hgone
                    rw [lookupFS_cons_none _ _ _ _ hgone] at hp
                    exact absurd hp (by simp)
                  | none =>
                    cases hrm : env.removeFail (target ++ [en.name]) with
                    | some e =>
                      rw [archive_loop_removeFail env T target en rest s b d e hlk hdate hlt
                        (fun _ => hcd) hcp hrm, if_neg hdir] at hgone
                      rw [lookupFS_cons_none _ _ _ _
                        (lookupFS_cons_none _ _ _ _ hgone)] at hp
                      exact absurd hp (by simp)
                    | none =>
                      rw [archive_loop_move env T target en rest s b d hlk hdate hlt
                        (fun _ => hcd) hcp hrm] at hgone
                      by_cases hpe : p = target ++ [en.name]
                      · exact ⟨en, List.mem_cons_self _ _, hpe⟩
                      · obtain ⟨en2, hmem, hp2⟩ := ih _ p
                          (lookupFS_movedFS_ne env target en.name d b s p hpe hp) hgone
                        exact ⟨en2, List.mem_cons_of_mem _ hmem, hp2⟩
            · exact step
                (archive_loop_skip_recent env T target en rest s b d hlk hdate hlt)

/-- Files inside subdirectories of the target stay present through the
archive loop. -/
theorem archive_loop_sub_preserved (env : Env) (T : Int) (target : Path) :
    ∀ (l : List (Except IOError ArchEntry)) (s : FS) (y nm : String),
      (lookupFS s (target ++ [y, nm])).isSome →
      (lookupFS (archive_loop env T target l s).1 (target ++ [y, nm])).isSome := by
  intro l
  induction l with
  | nil => intro s y nm hp; exact hp
  | cons hd rest ih =>
    intro s y nm hp
    cases hd with
    | error e => exact hp
    | ok en =>
      cases hlk : lookupFS s (target ++ [en.name]) with
      | none =>
        rw [archive_loop_skip_nonfile env T target en rest s (by simp [hlk])]
        exact ih s y nm hp
      | some node =>
        cases node with
        | dir =>
          rw [archive_loop_skip_nonfile env T target en rest s (by simp [hlk])]
          exact ih s y nm hp
        | file b =>
          cases hdate : entryDate en with
          | none =>
            rw [archive_loop_skip_nodate env T target en rest s b hlk hdate]
            exact ih s y nm hp
          | some d =>
            by_cases hlt : d < T
            · by_cases hdir : (lookupFS s (target ++ [formatY (env.yearOf d)])).isSome
              · cases hcp : env.copyFail (target ++ [formatY (env.yearOf d), en.name]) with
                | some e =>
                  rw [archive_loop_copyFail env T target en rest s b d e hlk hdate hlt
                    (fun h => absurd hdir (by simp [h])) hcp, if_pos hdir]
                  exact hp
                | none =>
                  cases hrm : env.removeFail (target ++ [en.name]) with
                  | some e =>
                    rw [archive_loop_removeFail env T target en rest s b d e hlk hdate hlt
                      (fun h => absurd hdir (by simp [h])) hcp hrm, if_pos hdir]
                    exact lookupFS_cons_isSome _ _ _ _ hp
                  | none =>
                    rw [archive_loop_move env T target en rest s b d hlk hdate hlt
                      (fun h => absurd hdir (by simp [h])) hcp hrm]
                    exact ih _ y nm (lookupFS_movedFS_ne env target en.name d b s _
                      (fun h => path_one_ne_two target en.name y nm h.symm) hp)
              · have hdirn := Option.not_isSome_iff_eq_none.mp hdir
                cases hcd : env.createDirFail (target ++ [formatY (env.yearOf d)]) with
                | some e =>
                  rw [archive_loop_createFail env T target en rest s b d e hlk hdate hlt
                    hdirn hcd]
                  exact hp
                | none =>
                  cases hcp : env.copyFail (target ++ [formatY (env.yearOf d), en.name]) with
                  | some e =>
                    rw [archive_loop_copyFail env T target en rest s b d e hlk hdate hlt
                      (fun _ => hcd) hcp, if_neg hdir]
                    exact lookupFS_cons_isSome _ _ _ _ hp
                  | none =>
                    cases hrm : env.removeFail (target ++ [en.name]) with
                    | some e =>
                      rw [archive_loop_removeFail env T target en rest s b d e hlk hdate hlt
                        (fun _ => hcd) hcp hrm, if_neg hdir]
                      exact lookupFS_cons_isSome _ _ _ _
                        (lookupFS_cons_isSome _ _ _ _ hp)
                    | none =>
                      rw [archive_loop_move env T target en rest s b d hlk hdate hlt
                        (fun _ => hcd) hcp hrm]
                      exact ih _ y nm (lookupFS_movedFS_ne env target en.name d b s _
                        (fun h => path_one_ne_two target en.name y nm h.symm) hp)
            · rw [archive_loop_skip_recent env T target en rest s b d hlk hdate hlt]
              exact ih s y nm hp

/-- C8: the archive stage is non-recursive: the only paths it ever deletes
are direct children of the target root named by listed entries, and a file
already inside a year subdirectory is never deleted or moved again. -/
theorem claim_C8 (env : Env) (today : Int) (target : Path)
    (l : List (Except IOError ArchEntry)) (fs : FS) :
    (∀ p, (lookupFS fs p).isSome →
      lookupFS (archive_loop env (today - 365) target l fs).1 p = none →
      ∃ en : ArchEntry, Except.ok en ∈ l ∧ p = target ++ [en.name]) ∧
    (∀ y nm, (lookupFS fs (target ++ [y, nm])).isSome →
      (lookupFS (archive_loop env (today - 365) target l fs).1 (target ++ [y, nm])).isSome) :=
  ⟨fun p hp hgone => archive_loop_removed_root env (today - 365) target l fs p hp hgone,
   fun y nm hp => archive_loop_sub_preserved env (today - 365) target l fs y nm hp⟩

theorem claim_C8_witness :
    (∃ en : ArchEntry,
      Except.ok en ∈
        ([Except.ok ⟨"old.jpg", some ⟨some 600, none⟩⟩] :
          List (Except IOError ArchEntry)) ∧
      (["T", "old.jpg"] : Path) = ["T"] ++ [en.name]) ∧
    (lookupFS (archive_loop envJpegOk (1000 - 365) ["T"]
        [Except.ok ⟨"old.jpg", some ⟨some 600, none⟩⟩]
        [(["T", "old.jpg"], Node.file [1]), (["T", "2022", "x.jpg"], Node.file [3])]).1
      (["T"] ++ ["2022", "x.jpg"])).isSome :=
  ⟨(claim_C8 envJpegOk 1000 ["T"] [Except.ok ⟨"old.jpg", some ⟨some 600, none⟩⟩]
      [(["T", "old.jpg"], Node.file [1]), (["T", "2022", "x.jpg"], Node.file [3])]).1
      ["T", "old.jpg"] (by decide) (by decide),
   (claim_C8 envJpegOk 1000 ["T"] [Except.ok ⟨"old.jpg", some ⟨some 600, none⟩⟩]
      [(["T", "old.jpg"], Node.file [1]), (["T", "2022", "x.jpg"], Node.file [3])]).2
      "2022" "x.jpg" (by decide)⟩

/-! ### Source directory discovery -/

/-- Scanning a listing with no matching package directory ends in the
`NotFound` error of the source. -/
theorem spotlight_scan_nomatch (home : Path) :
    ∀ (l : List (Except IOError PkgEntry)),
      (∀ x ∈ l, ∃ pe : PkgEntry, x = Except.ok pe ∧
        (pe.isDir && isSpotlightPkg pe.name) = false) →
      spotlight_scan home l =
        Except.error ⟨IOErrorKind.notFound, "Can not find Spotlight image dir"⟩ := by
  intro l
  induction l with
  | nil => intro h; rfl
  | cons x l2 ihl =>
    intro h
    obtain ⟨pe, rfl, hf⟩ := h x (List.mem_cons_self x l2)
    rw [spotlight_scan, if_neg (by simp [hf])]
    exact ihl (fun z hz => h z (List.mem_cons_of_mem _ hz))

/-- The scan returns for the first matching directory entry, joined with
the fixed asset subfolder. -/
theorem spotlight_scan_first (home : Path) :
    ∀ (pre : List (Except IOError PkgEntry)) (post : List (Except IOError PkgEntry))
      (pe : PkgEntry),
      (∀ x ∈ pre, ∃ q : PkgEntry, x = Except.ok q ∧
        (q.isDir && isSpotlightPkg q.name) = false) →
      (pe.isDir && isSpotlightPkg pe.name) = true →
      spotlight_scan home (pre ++ Except.ok pe :: post) =
        Except.ok (home ++ ["AppData\\Local\\Packages", pe.name, "LocalState\\Assets"]) := by
  intro pre
  induction pre with
  | nil =>
    intro post pe h hm
    rw [List.nil_append, spotlight_scan, if_pos hm]
  | cons x pre2 ihp =>
    intro post pe h hm
    obtain ⟨q, rfl, hf⟩ := h x (List.mem_cons_self x pre2)
    rw [List.cons_append, spotlight_scan, if_neg (by simp [hf])]
    exact ihp post pe (fun z hz => h z (List.mem_cons_of_mem _ hz)) hm

/-- C7 (amended): discovery returns, for the first directory entry whose
name starts with the content-delivery-manager package name, its path joined
with the fixed asset subfolder; when the listing succeeds but no child
matches it fails with the NotFound error; when the parent directory cannot
be listed, the listing error is propagated unchanged, so its kind is
NotFound only when the underlying error is NotFound. -/
theorem claim_C7 :
    (∀ (home : Path) (e : IOError),
      get_spotlight_dir home (Except.error e) = Except.error e) ∧
    (∀ (home : Path) (l : List (Except IOError PkgEntry)),
      (∀ x ∈ l, ∃ pe : PkgEntry, x = Except.ok pe ∧
        (pe.isDir && isSpotlightPkg pe.name) = false) →
      get_spotlight_dir home (Except.ok l) =
        Except.error ⟨IOErrorKind.notFound, "Can not find Spotlight image dir"⟩) ∧
    (∀ (home : Path) (pre post : List (Except IOError PkgEntry)) (pe : PkgEntry),
      (∀ x ∈ pre, ∃ q : PkgEntry, x = Except.ok q ∧
        (q.isDir && isSpotlightPkg q.name) = false) →
      (pe.isDir && isSpotlightPkg pe.name) = true →
      get_spotlight_dir home (Except.ok (pre ++ Except.ok pe :: post)) =
        Except.ok (home ++ ["AppData\\Local\\Packages", pe.name, "LocalState\\Assets"])) := by
  refine ⟨fun home e => rfl, ?_, ?_⟩
  · intro home l h
    exact spotlight_scan_nomatch home l h
  · intro home pre post pe h hm
    exact spotlight_scan_first home pre post pe h hm

/-- C7 counterexample: when listing the package parent directory fails with
a permission error, `get_spotlight_dir` propagates that very error, whose
kind is not NotFound — contradicting the claim that a listing failure
yields a NotFound error. -/
theorem claim_C7_counterexample :
    get_spotlight_dir ["home"]
        (Except.error ⟨IOErrorKind.permissionDenied, "Access is denied"⟩) =
      Except.error ⟨IOErrorKind.permissionDenied, "Access is denied"⟩ ∧
    IOErrorKind.permissionDenied ≠ IOErrorKind.notFound :=
  ⟨rfl, by decide⟩

theorem claim_C7_witness :
    get_spotlight_dir ["h"]
        (Except.ok [Except.ok ⟨"file.txt", false⟩,
          Except.ok ⟨"Microsoft.Windows.ContentDeliveryManager_cw5n1h2txyewy", true⟩]) =
      Except.ok (["h"] ++ ["AppData\\Local\\Packages",
        "Microsoft.Windows.ContentDeliveryManager_cw5n1h2txyewy", "LocalState\\Assets"]) ∧
    get_spotlight_dir ["h"] (Except.ok [Except.ok ⟨"Other.Pkg", true⟩]) =
      Except.error ⟨IOErrorKind.notFound, "Can not find Spotlight image dir"⟩ ∧
    get_spotlight_dir ["h"]
        (Except.error ⟨IOErrorKind.other, "disk error"⟩) =
      Except.error ⟨IOErrorKind.other, "disk error"⟩ := by
  refine ⟨?_, ?_, claim_C7.1 ["h"] ⟨IOErrorKind.other, "disk error"⟩⟩
  · have h := claim_C7.2.2 ["h"] [Except.ok ⟨"file.txt", false⟩] []
      ⟨"Microsoft.Windows.ContentDeliveryManager_cw5n1h2txyewy", true⟩
      (fun z hz => by
        rw [List.mem_singleton] at hz
        exact ⟨⟨"file.txt", false⟩, hz, by decide⟩)
      (by decide)
    exact h
  · exact claim_C7.2.1 ["h"] [Except.ok ⟨"Other.Pkg", true⟩]
      (fun z hz => by
        rw [List.mem_singleton] at hz
        exact ⟨⟨"Other.Pkg", true⟩, hz, by decide⟩)

end SpotlightSave
